import Mathlib

/-!
Verification development for the `pgmigrate` package (a Postgres schema
migration runner).  The Go source is shallowly embedded below:

* filenames are parsed exactly as the discovery loop of `MigrateDatabase`
  does (Go `strings.Split` on a one-character separator is `splitOnChar`,
  `strconv.ParseUint(s, 10, 64)` is `parseUint64`, and the Go conversion
  `int(u)` of a `uint64` is `uint64ToInt64`);
* the Go maps `upFiles`/`downFiles` become functions `Int → Option String`
  with the zero-value convention of Go map reads (`(m idx).getD ""`);
* the database connection (`Queryer`) is modelled as a single connection
  whose committed state is a `Session`: an abstract schema of type `σ`
  together with the contents of the single-row `_migrate_` table
  (`none` when the table does not exist).  Migration SQL is interpreted by
  an oracle `db : String → σ → Option σ` (`none` = the statement batch
  fails).  `BeginTx` opens a transaction on the connection, so the two
  `ExecContext` calls of `runFile` run inside it and `Commit`/`Rollback`
  publish or discard both effects together, as in the package's test which
  drives `MigrateDatabase` over a single `*sql.Conn`;
* every database action is also recorded in an event trace (`Ev`), which
  lets theorems speak about which statements were executed and in which
  order.
-/

namespace Pgmigrate

/-- Errors surfaced by the Go driver layer: either a `*pq.Error` carrying a
postgres condition code name, or any other Go error (for example a
`Row.Scan` conversion failure). -/
inductive GoError where
  | pq (codeName : String)
  | other (msg : String)
deriving DecidableEq, Repr

/-- The errors `MigrateDatabase`/`runFile` can return, one constructor per
`return`-with-error site of the source. -/
inductive MigError where
  | invalidFilename (name : String)
  | badFilename (name : String)
  | missingUp (idx : Int)
  | missingDown (idx : Int)
  | readFileError (name : String)
  | executing (name : String)
  | updateVersionError
deriving DecidableEq, Repr

/-- Observable database actions, in the order they are issued. -/
inductive Ev where
  | bootstrap
  | beginTx
  | exec (name : String)
  | setVersion (v : Int)
  | commit
  | rollback
deriving DecidableEq, Repr

/-- Direction token of a migration file. -/
inductive Direction where
  | up
  | down
deriving DecidableEq, Repr

/-- Outcome of classifying one directory entry in the discovery loop:
silently skipped, a fatal filename error, or an indexed up/down entry. -/
inductive ParseOutcome where
  | skip
  | err (e : MigError)
  | entry (number : Int) (dir : Direction)
deriving DecidableEq, Repr

/-- Committed state of the database connection: the abstract schema and the
content of the single-row `_migrate_` table (`none` = table absent). -/
structure Session (σ : Type) where
  schema : σ
  version : Option Int
deriving DecidableEq, Repr

/-- Go `strings.Split` for a one-character separator (both separators used
by the source, `"."` and `"-"`, are one character).  Splitting the empty
string yields `[[]]`, exactly as in Go. -/
def splitOnChar (c : Char) : List Char → List (List Char)
  | [] => [[]]
  | x :: xs =>
    if x = c then [] :: splitOnChar c xs
    else
      match splitOnChar c xs with
      | [] => [[x]]
      | g :: gs => (x :: g) :: gs

/-- Go `strconv.ParseUint(s, 10, 64)`: a nonempty string of decimal digits
whose value fits in 64 bits; no sign, no underscores (base 10 is given
explicitly). -/
def parseUint64 (cs : List Char) : Option Nat :=
  if cs.isEmpty then none
  else if cs.all (fun c => c.isDigit) then
    let n := cs.foldl (fun acc c => acc * 10 + (c.toNat - 48)) 0
    if n < 2 ^ 64 then some n else none
  else none

/-- The Go conversion `int(u)` of a `uint64` value on a 64-bit platform:
two's-complement wrap-around. -/
def uint64ToInt64 (n : Nat) : Int :=
  if n < 2 ^ 63 then (n : Int) else (n : Int) - 2 ^ 64

/-- The guard conditions of the discovery loop that make a directory entry
a candidate migration file: exactly three dot-separated segments, the last
being the literal `sql`. -/
def shapeSql (name : String) : Bool :=
  match splitOnChar '.' name.toList with
  | [_, _, p2] => p2 == "sql".toList
  | _ => false

/-- Classification of one directory entry, translated from the body of the
discovery loop of `MigrateDatabase` (split on `.`; skip unless exactly
three segments ending in `sql`; parse the number segment up to the first
`-` as an unsigned integer, failing fatally if it does not parse; then
dispatch on the direction token, failing fatally if it is neither `up` nor
`down`). -/
def parseName (name : String) : ParseOutcome :=
  match splitOnChar '.' name.toList with
  | [p0, p1, p2] =>
    if p2 ≠ "sql".toList then ParseOutcome.skip
    else
      match parseUint64 ((splitOnChar '-' p0).headD []) with
      | none => ParseOutcome.err (MigError.invalidFilename name)
      | some numberUI64 =>
        if p1 = "up".toList then
          ParseOutcome.entry (uint64ToInt64 numberUI64) Direction.up
        else if p1 = "down".toList then
          ParseOutcome.entry (uint64ToInt64 numberUI64) Direction.down
        else ParseOutcome.err (MigError.badFilename name)
  | _ => ParseOutcome.skip

/-- Go map assignment `m[k] = v`. -/
def mapInsert (m : Int → Option String) (k : Int) (v : String) : Int → Option String :=
  fun i => if i = k then some v else m i

/-- The discovery loop of `MigrateDatabase`: fold over the directory
listing building the up/down indexes and the running maximum migration
number (the maximum is updated before the direction dispatch, exactly as in
the source). -/
def loadFiles : List String → (Int → Option String) → (Int → Option String) → Int →
    Except MigError ((Int → Option String) × (Int → Option String) × Int)
  | [], ups, downs, maxMigration => Except.ok (ups, downs, maxMigration)
  | name :: rest, ups, downs, maxMigration =>
    match parseName name with
    | ParseOutcome.skip => loadFiles rest ups downs maxMigration
    | ParseOutcome.err e => Except.error e
    | ParseOutcome.entry n d =>
      let maxMigration2 := if maxMigration < n then n else maxMigration
      match d with
      | Direction.up => loadFiles rest (mapInsert ups n name) downs maxMigration2
      | Direction.down => loadFiles rest ups (mapInsert downs n name) maxMigration2

/-- The completeness-check loop `for idx := 1; idx < maxMigration; idx++`,
unrolled on the number of remaining iterations: at each index the up-file
is checked before the down-file, and the first missing file aborts the
check. -/
def validateFrom (ups downs : Int → Option String) : Nat → Int → Option MigError
  | 0, _ => none
  | k + 1, idx =>
    if (ups idx).isNone then some (MigError.missingUp idx)
    else if (downs idx).isNone then some (MigError.missingDown idx)
    else validateFrom ups downs k (idx + 1)

/-- The completeness check of `MigrateDatabase`: indices `1` up to (but not
including) `maxMigration`. -/
def validate (ups downs : Int → Option String) (maxMigration : Int) : Option MigError :=
  validateFrom ups downs (maxMigration - 1).toNat 1

/-- Reading the file named by `ReadFile(filepath.Join(migrationsDir, name))`
over the directory model (a listing of name/content pairs).  A name that is
not a directory entry fails to read; in particular the empty name produced
by a missing Go map key joins back to the directory path itself, which
`ReadFile` cannot read. -/
def lookupFile : List (String × String) → String → Option String
  | [], _ => none
  | (n, c) :: rest, name => if n = name then some c else lookupFile rest name

variable {σ : Type}

/-- Function `getVersion` on the session model: read the single `_migrate_` row; if
the table is absent the driver reports `undefined_table` and the function
creates the table with initial version `0` and returns `0`. -/
def getVersion (s : Session σ) : Session σ × Int × List Ev :=
  match s.version with
  | some v => (s, v, [])
  | none => (⟨s.schema, some 0⟩, 0, [Ev.bootstrap])

/-- The error-classification logic of `getVersion` (source lines 29-44),
abstracted over the result of the `Scan` and of the bootstrap `Exec`: a
scan error that is not a `*pq.Error` is returned unchanged; a `*pq.Error`
whose code name is not `undefined_table` is returned unchanged; only the
`undefined_table` signal triggers the bootstrap, whose own error is
returned if it fails, and which otherwise yields version `0` (the
zero-initialized local that `Scan` never wrote). -/
def getVersionCore (scan : Except GoError Int) (createResult : Except GoError Unit) :
    Except GoError Int :=
  match scan with
  | Except.ok v => Except.ok v
  | Except.error e =>
    match e with
    | GoError.other m => Except.error (GoError.other m)
    | GoError.pq code =>
      if code ≠ "undefined_table" then Except.error (GoError.pq code)
      else
        match createResult with
        | Except.error e2 => Except.error e2
        | Except.ok _ => Except.ok 0

/-- Function `runFile`: read the file, begin a transaction, execute the file content
as one statement batch, update the persisted version, commit; on a batch or
update failure roll the transaction back, leaving the committed state
untouched. -/
def runFile (db : String → σ → Option σ) (fs : String → Option String)
    (s : Session σ) (filename : String) (version : Int) :
    Session σ × Option MigError × List Ev :=
  match fs filename with
  | none => (s, some (MigError.readFileError filename), [])
  | some contents =>
    match db contents s.schema with
    | none =>
      (s, some (MigError.executing filename),
        [Ev.beginTx, Ev.exec filename, Ev.rollback])
    | some schema2 =>
      match s.version with
      | none =>
        (s, some MigError.updateVersionError,
          [Ev.beginTx, Ev.exec filename, Ev.rollback])
      | some _ =>
        (⟨schema2, some version⟩, none,
          [Ev.beginTx, Ev.exec filename, Ev.setVersion version, Ev.commit])

/-- The ascending pass of `MigrateDatabase`, unrolled on the number of
remaining iterations: run the up-file for `idx`, persisting version `idx`,
then continue with `idx + 1`; abort on the first error. -/
def runUp (db : String → σ → Option σ) (fs : String → Option String)
    (ups : Int → Option String) :
    Nat → Int → Session σ → Session σ × Option MigError × List Ev
  | 0, _, s => (s, none, [])
  | k + 1, idx, s =>
    match runFile db fs s ((ups idx).getD "") idx with
    | (s2, none, tr) =>
      match runUp db fs ups k (idx + 1) s2 with
      | (s3, e, tr2) => (s3, e, tr ++ tr2)
    | (s2, some e, tr) => (s2, some e, tr)

/-- The descending pass of `MigrateDatabase`, unrolled on the number of
remaining iterations: run the down-file for `idx`, persisting version
`idx - 1`, then continue with `idx - 1`; abort on the first error. -/
def runDown (db : String → σ → Option σ) (fs : String → Option String)
    (downs : Int → Option String) :
    Nat → Int → Session σ → Session σ × Option MigError × List Ev
  | 0, _, s => (s, none, [])
  | k + 1, idx, s =>
    match runFile db fs s ((downs idx).getD "") (idx - 1) with
    | (s2, none, tr) =>
      match runDown db fs downs k (idx - 1) s2 with
      | (s3, e, tr2) => (s3, e, tr ++ tr2)
    | (s2, some e, tr) => (s2, some e, tr)

/-- Function `MigrateDatabase`: bootstrap/read the current version, discover and
validate the migration set, resolve the `-1` sentinel to the maximum
discovered number, then run the ascending pass, the descending pass, or
nothing, according to the comparison of target and current version.  The
ascending pass runs `(target - current).toNat` iterations starting at
`current + 1` and the descending pass `(current - target).toNat`
iterations starting at `current`, which is exactly the Go loop count. -/
def MigrateDatabase (db : String → σ → Option σ) (dir : List (String × String))
    (s : Session σ) (targetVersion : Int) : Session σ × Option MigError × List Ev :=
  match getVersion s with
  | (s1, currentVersion, tr0) =>
    match loadFiles (dir.map Prod.fst) (fun _ => none) (fun _ => none) 0 with
    | Except.error e => (s1, some e, tr0)
    | Except.ok (ups, downs, maxMigration) =>
      match validate ups downs maxMigration with
      | some e => (s1, some e, tr0)
      | none =>
        let target := if targetVersion = -1 then maxMigration else targetVersion
        if target > currentVersion then
          match runUp db (lookupFile dir) ups (target - currentVersion).toNat
              (currentVersion + 1) s1 with
          | (s2, e, tr2) => (s2, e, tr0 ++ tr2)
        else if target < currentVersion then
          match runDown db (lookupFile dir) downs (currentVersion - target).toNat
              currentVersion s1 with
          | (s2, e, tr2) => (s2, e, tr0 ++ tr2)
        else (s1, none, tr0)

/-- Reference trace for one ascending pass, written from the spec's words:
for `idx` from `current + 1` through `target`, execute the up-file for
`idx` inside a fresh transaction, then persist version `idx`, then
commit. -/
def specUpTrace (ups : Int → Option String) : Nat → Int → List Ev
  | 0, _ => []
  | k + 1, idx =>
    [Ev.beginTx, Ev.exec ((ups idx).getD ""), Ev.setVersion idx, Ev.commit]
      ++ specUpTrace ups k (idx + 1)

/-- Reference trace for one descending pass, written from the spec's words:
for `idx` from `current` down to `target + 1`, execute the down-file for
`idx` inside a fresh transaction, then persist version `idx - 1`, then
commit. -/
def specDownTrace (downs : Int → Option String) : Nat → Int → List Ev
  | 0, _ => []
  | k + 1, idx =>
    [Ev.beginTx, Ev.exec ((downs idx).getD ""), Ev.setVersion (idx - 1), Ev.commit]
      ++ specDownTrace downs k (idx - 1)

end Pgmigrate
namespace Pgmigrate

variable {σ : Type}

theorem runUp_zero {db : String → σ → Option σ} {fs ups} {idx : Int} {s : Session σ} :
    runUp db fs ups 0 idx s = (s, none, []) := rfl

theorem runUp_succ {db : String → σ → Option σ} {fs ups} {k : Nat} {idx : Int}
    {s : Session σ} :
    runUp db fs ups (k + 1) idx s =
      match runFile db fs s ((ups idx).getD "") idx with
      | (s2, none, tr) =>
        match runUp db fs ups k (idx + 1) s2 with
        | (s3, e, tr2) => (s3, e, tr ++ tr2)
      | (s2, some e, tr) => (s2, some e, tr) := rfl

theorem runDown_zero {db : String → σ → Option σ} {fs downs} {idx : Int} {s : Session σ} :
    runDown db fs downs 0 idx s = (s, none, []) := rfl

theorem runDown_succ {db : String → σ → Option σ} {fs downs} {k : Nat} {idx : Int}
    {s : Session σ} :
    runDown db fs downs (k + 1) idx s =
      match runFile db fs s ((downs idx).getD "") (idx - 1) with
      | (s2, none, tr) =>
        match runDown db fs downs k (idx - 1) s2 with
        | (s3, e, tr2) => (s3, e, tr ++ tr2)
      | (s2, some e, tr) => (s2, some e, tr) := rfl

theorem getVersion_version {s s1 : Session σ} {v : Int} {tr : List Ev}
    (h : getVersion s = (s1, v, tr)) :
    s1.version = some v ∧ s1.schema = s.schema ∧ (tr = [] ∨ tr = [Ev.bootstrap]) := by
  cases hv : s.version with
  | none =>
    simp only [getVersion, hv, Prod.mk.injEq] at h
    obtain ⟨h1, h2, h3⟩ := h
    subst h1
    subst h2
    exact ⟨rfl, rfl, Or.inr h3.symm⟩
  | some w =>
    simp only [getVersion, hv, Prod.mk.injEq] at h
    obtain ⟨h1, h2, h3⟩ := h
    subst h1
    subst h2
    exact ⟨hv, rfl, Or.inl h3.symm⟩

theorem runFile_ok {db : String → σ → Option σ} {fs : String → Option String}
    {s : Session σ} {filename : String} {version : Int} {s' : Session σ} {tr : List Ev}
    (h : runFile db fs s filename version = (s', none, tr)) :
    ∃ c sch2 w, fs filename = some c ∧ db c s.schema = some sch2 ∧ s.version = some w ∧
      s' = ⟨sch2, some version⟩ ∧
      tr = [Ev.beginTx, Ev.exec filename, Ev.setVersion version, Ev.commit] := by
  cases hf : fs filename with
  | none => simp [runFile, hf] at h
  | some c =>
    cases hdb : db c s.schema with
    | none => simp [runFile, hf, hdb] at h
    | some sch2 =>
      cases hv : s.version with
      | none => simp [runFile, hf, hdb, hv] at h
      | some w =>
        simp only [runFile, hf, hdb, hv, Prod.mk.injEq] at h
        exact ⟨c, sch2, w, rfl, hdb, rfl, h.1.symm, h.2.2.symm⟩

theorem runUp_ok_version {db : String → σ → Option σ} {fs ups} :
    ∀ (k : Nat) (idx : Int) (s s' : Session σ) (tr : List Ev),
      runUp db fs ups k idx s = (s', none, tr) →
      (k = 0 ∧ s' = s ∧ tr = []) ∨ s'.version = some (idx + k - 1) := by
  intro k
  induction k with
  | zero =>
    intro idx s s' tr h
    rw [runUp_zero] at h
    simp only [Prod.mk.injEq] at h
    exact Or.inl ⟨rfl, h.1.symm, h.2.2.symm⟩
  | succ k ih =>
    intro idx s s' tr h
    rw [runUp_succ] at h
    rcases hr : runFile db fs s ((ups idx).getD "") idx with ⟨s2, e2, tr2⟩
    cases e2 with
    | some e => rw [hr] at h; simp at h
    | none =>
      rw [hr] at h
      dsimp only at h
      rcases hr2 : runUp db fs ups k (idx + 1) s2 with ⟨s3, e3, tr3⟩
      rw [hr2] at h
      dsimp only at h
      simp only [Prod.mk.injEq] at h
      obtain ⟨h1, h2, h3⟩ := h
      subst h1
      rw [h2] at hr2
      rcases ih (idx + 1) s2 s3 tr3 hr2 with ⟨hk0, hs, _⟩ | hver
      · subst hk0 hs
        obtain ⟨c, sch2, w, _, _, _, hs2, _⟩ := runFile_ok hr
        subst hs2
        right
        dsimp only
        congr 1 <;> omega
      · right
        rw [hver]
        congr 1 <;> omega

theorem runDown_ok_version {db : String → σ → Option σ} {fs downs} :
    ∀ (k : Nat) (idx : Int) (s s' : Session σ) (tr : List Ev),
      runDown db fs downs k idx s = (s', none, tr) →
      (k = 0 ∧ s' = s ∧ tr = []) ∨ s'.version = some (idx - k) := by
  intro k
  induction k with
  | zero =>
    intro idx s s' tr h
    rw [runDown_zero] at h
    simp only [Prod.mk.injEq] at h
    exact Or.inl ⟨rfl, h.1.symm, h.2.2.symm⟩
  | succ k ih =>
    intro idx s s' tr h
    rw [runDown_succ] at h
    rcases hr : runFile db fs s ((downs idx).getD "") (idx - 1) with ⟨s2, e2, tr2⟩
    cases e2 with
    | some e => rw [hr] at h; simp at h
    | none =>
      rw [hr] at h
      dsimp only at h
      rcases hr2 : runDown db fs downs k (idx - 1) s2 with ⟨s3, e3, tr3⟩
      rw [hr2] at h
      dsimp only at h
      simp only [Prod.mk.injEq] at h
      obtain ⟨h1, h2, h3⟩ := h
      subst h1
      rw [h2] at hr2
      rcases ih (idx - 1) s2 s3 tr3 hr2 with ⟨hk0, hs, _⟩ | hver
      · subst hk0 hs
        obtain ⟨c, sch2, w, _, _, _, hs2, _⟩ := runFile_ok hr
        subst hs2
        right
        dsimp only
        congr 1 <;> omega
      · right
        rw [hver]
        congr 1 <;> omega

theorem specUpTrace_succ {ups : Int → Option String} {k : Nat} {idx : Int} :
    specUpTrace ups (k + 1) idx =
      [Ev.beginTx, Ev.exec ((ups idx).getD ""), Ev.setVersion idx, Ev.commit]
        ++ specUpTrace ups k (idx + 1) := rfl

theorem specDownTrace_succ {downs : Int → Option String} {k : Nat} {idx : Int} :
    specDownTrace downs (k + 1) idx =
      [Ev.beginTx, Ev.exec ((downs idx).getD ""), Ev.setVersion (idx - 1), Ev.commit]
        ++ specDownTrace downs k (idx - 1) := rfl

theorem runUp_ok_trace {db : String → σ → Option σ} {fs ups} :
    ∀ (k : Nat) (idx : Int) (s s' : Session σ) (tr : List Ev),
      runUp db fs ups k idx s = (s', none, tr) → tr = specUpTrace ups k idx := by
  intro k
  induction k with
  | zero =>
    intro idx s s' tr h
    rw [runUp_zero] at h
    simp only [Prod.mk.injEq] at h
    exact h.2.2.symm
  | succ k ih =>
    intro idx s s' tr h
    rw [runUp_succ] at h
    rcases hr : runFile db fs s ((ups idx).getD "") idx with ⟨s2, e2, tr2⟩
    cases e2 with
    | some e => rw [hr] at h; simp at h
    | none =>
      rw [hr] at h
      dsimp only at h
      rcases hr2 : runUp db fs ups k (idx + 1) s2 with ⟨s3, e3, tr3⟩
      rw [hr2] at h
      dsimp only at h
      simp only [Prod.mk.injEq] at h
      obtain ⟨h1, h2, h3⟩ := h
      rw [h2] at hr2
      obtain ⟨c, sch2, w, _, _, _, _, htr2⟩ := runFile_ok hr
      subst htr2
      rw [← h3, ih (idx + 1) s2 s3 tr3 hr2]
      exact specUpTrace_succ.symm

theorem runDown_ok_trace {db : String → σ → Option σ} {fs downs} :
    ∀ (k : Nat) (idx : Int) (s s' : Session σ) (tr : List Ev),
      runDown db fs downs k idx s = (s', none, tr) → tr = specDownTrace downs k idx := by
  intro k
  induction k with
  | zero =>
    intro idx s s' tr h
    rw [runDown_zero] at h
    simp only [Prod.mk.injEq] at h
    exact h.2.2.symm
  | succ k ih =>
    intro idx s s' tr h
    rw [runDown_succ] at h
    rcases hr : runFile db fs s ((downs idx).getD "") (idx - 1) with ⟨s2, e2, tr2⟩
    cases e2 with
    | some e => rw [hr] at h; simp at h
    | none =>
      rw [hr] at h
      dsimp only at h
      rcases hr2 : runDown db fs downs k (idx - 1) s2 with ⟨s3, e3, tr3⟩
      rw [hr2] at h
      dsimp only at h
      simp only [Prod.mk.injEq] at h
      obtain ⟨h1, h2, h3⟩ := h
      rw [h2] at hr2
      obtain ⟨c, sch2, w, _, _, _, _, htr2⟩ := runFile_ok hr
      subst htr2
      rw [← h3, ih (idx - 1) s2 s3 tr3 hr2]
      exact specDownTrace_succ.symm

theorem runUp_ok_present {db : String → σ → Option σ} {fs ups} :
    ∀ (k : Nat) (idx : Int) (s s' : Session σ) (tr : List Ev),
      runUp db fs ups k idx s = (s', none, tr) →
      ∀ j : Int, idx ≤ j → j < idx + k → ∃ c, fs ((ups j).getD "") = some c := by
  intro k
  induction k with
  | zero => intro idx s s' tr h j h1 h2; exfalso; omega
  | succ k ih =>
    intro idx s s' tr h j h1 h2
    rw [runUp_succ] at h
    rcases hr : runFile db fs s ((ups idx).getD "") idx with ⟨s2, e2, tr2⟩
    cases e2 with
    | some e => rw [hr] at h; simp at h
    | none =>
      rw [hr] at h
      dsimp only at h
      rcases hr2 : runUp db fs ups k (idx + 1) s2 with ⟨s3, e3, tr3⟩
      rw [hr2] at h
      dsimp only at h
      simp only [Prod.mk.injEq] at h
      obtain ⟨h1', h2', h3'⟩ := h
      rcases eq_or_lt_of_le h1 with heq | hlt
      · obtain ⟨c, sch2, w, hf, _, _, _, _⟩ := runFile_ok hr
        subst heq
        exact ⟨c, hf⟩
      · rw [h2'] at hr2
        exact ih (idx + 1) s2 s3 tr3 hr2 j (by omega) (by omega)

end Pgmigrate
namespace Pgmigrate

variable {σ : Type}

theorem loadFiles_cons {name : String} {rest : List String}
    {ups downs : Int → Option String} {maxMigration : Int} :
    loadFiles (name :: rest) ups downs maxMigration =
      match parseName name with
      | ParseOutcome.skip => loadFiles rest ups downs maxMigration
      | ParseOutcome.err e => Except.error e
      | ParseOutcome.entry n d =>
        match d with
        | Direction.up =>
          loadFiles rest (mapInsert ups n name) downs
            (if maxMigration < n then n else maxMigration)
        | Direction.down =>
          loadFiles rest ups (mapInsert downs n name)
            (if maxMigration < n then n else maxMigration) := rfl

theorem loadFiles_inv :
    ∀ (names : List String) (u d : Int → Option String) (mm : Int)
      (u2 d2 : Int → Option String) (m2 : Int),
      loadFiles names u d mm = Except.ok (u2, d2, m2) →
      mm ≤ m2 ∧ ∀ i : Int, m2 < i → u2 i = u i ∧ d2 i = d i := by
  intro names
  induction names with
  | nil =>
    intro u d mm u2 d2 m2 h
    simp only [loadFiles, Except.ok.injEq, Prod.mk.injEq] at h
    obtain ⟨h1, h2, h3⟩ := h
    subst h1 h2 h3
    exact ⟨le_refl _, fun i _ => ⟨rfl, rfl⟩⟩
  | cons name rest ih =>
    intro u d mm u2 d2 m2 h
    rw [loadFiles_cons] at h
    cases hp : parseName name with
    | skip =>
      rw [hp] at h
      exact ih u d mm u2 d2 m2 h
    | err e => rw [hp] at h; simp at h
    | entry n dd =>
      rw [hp] at h
      cases dd with
      | up =>
        dsimp only at h
        obtain ⟨h1, h2⟩ := ih _ _ _ _ _ _ h
        constructor
        · have : mm ≤ if mm < n then n else mm := by split <;> omega
          omega
        · intro i hi
          obtain ⟨hu, hd⟩ := h2 i hi
          refine ⟨?_, hd⟩
          rw [hu]
          have hn : n ≤ if mm < n then n else mm := by split <;> omega
          have h1' : mm ≤ if mm < n then n else mm := by split <;> omega
          unfold mapInsert
          rw [if_neg]
          omega
      | down =>
        dsimp only at h
        obtain ⟨h1, h2⟩ := ih _ _ _ _ _ _ h
        constructor
        · have : mm ≤ if mm < n then n else mm := by split <;> omega
          omega
        · intro i hi
          obtain ⟨hu, hd⟩ := h2 i hi
          refine ⟨hu, ?_⟩
          rw [hd]
          have hn : n ≤ if mm < n then n else mm := by split <;> omega
          have h1' : mm ≤ if mm < n then n else mm := by split <;> omega
          unfold mapInsert
          rw [if_neg]
          omega

theorem validateFrom_zero {ups downs : Int → Option String} {idx : Int} :
    validateFrom ups downs 0 idx = none := rfl

theorem validateFrom_succ {ups downs : Int → Option String} {k : Nat} {idx : Int} :
    validateFrom ups downs (k + 1) idx =
      if (ups idx).isNone then some (MigError.missingUp idx)
      else if (downs idx).isNone then some (MigError.missingDown idx)
      else validateFrom ups downs k (idx + 1) := rfl

theorem validateFrom_none_iff {ups downs : Int → Option String} :
    ∀ (k : Nat) (idx : Int),
      validateFrom ups downs k idx = none ↔
        ∀ i : Int, idx ≤ i → i < idx + k → (ups i).isSome ∧ (downs i).isSome := by
  intro k
  induction k with
  | zero =>
    intro idx
    rw [validateFrom_zero]
    constructor
    · intro _ i h1 h2
      exfalso
      omega
    · intro _
      rfl
  | succ k ih =>
    intro idx
    cases hu : ups idx with
    | none =>
      have hstep : validateFrom ups downs (k + 1) idx = some (MigError.missingUp idx) := by
        rw [validateFrom_succ, hu]
        rfl
      rw [hstep]
      constructor
      · intro h
        exact absurd h (by simp)
      · intro hall
        have := (hall idx (le_refl _) (by omega)).1
        rw [hu] at this
        simp at this
    | some a =>
      cases hd : downs idx with
      | none =>
        have hstep : validateFrom ups downs (k + 1) idx = some (MigError.missingDown idx) := by
          rw [validateFrom_succ, hu, hd]
          rfl
        rw [hstep]
        constructor
        · intro h
          exact absurd h (by simp)
        · intro hall
          have := (hall idx (le_refl _) (by omega)).2
          rw [hd] at this
          simp at this
      | some b =>
        have hstep : validateFrom ups downs (k + 1) idx = validateFrom ups downs k (idx + 1) := by
          rw [validateFrom_succ, hu, hd]
          rfl
        rw [hstep, ih (idx + 1)]
        constructor
        · intro hall i h1 h2
          rcases eq_or_lt_of_le h1 with heq | hlt
          · subst heq
            exact ⟨by rw [hu]; rfl, by rw [hd]; rfl⟩
          · exact hall i (by omega) (by omega)
        · intro hall i h1 h2
          exact hall i (by omega) (by omega)

theorem validateFrom_first {ups downs : Int → Option String} :
    ∀ (k : Nat) (idx j : Int),
      idx ≤ j → j < idx + k →
      (∀ i : Int, idx ≤ i → i < j → (ups i).isSome ∧ (downs i).isSome) →
      (ups j = none → validateFrom ups downs k idx = some (MigError.missingUp j)) ∧
      (∀ a, ups j = some a → downs j = none →
        validateFrom ups downs k idx = some (MigError.missingDown j)) := by
  intro k
  induction k with
  | zero =>
    intro idx j h1 h2 _
    exfalso
    omega
  | succ k ih =>
    intro idx j h1 h2 hpre
    rcases eq_or_lt_of_le h1 with heq | hlt
    · subst heq
      constructor
      · intro hu
        rw [validateFrom_succ, hu]
        rfl
      · intro a hu hd
        rw [validateFrom_succ, hu, hd]
        rfl
    · have hok := hpre idx (le_refl _) hlt
      obtain ⟨a, ha⟩ := Option.isSome_iff_exists.mp hok.1
      obtain ⟨b, hb⟩ := Option.isSome_iff_exists.mp hok.2
      have hstep : validateFrom ups downs (k + 1) idx = validateFrom ups downs k (idx + 1) := by
        rw [validateFrom_succ, ha, hb]
        rfl
      rw [hstep]
      exact ih (idx + 1) j (by omega) (by omega) (fun i hi1 hi2 => hpre i (by omega) hi2)

end Pgmigrate
namespace Pgmigrate

variable {σ : Type}

theorem MigrateDatabase_ok_inv {db : String → σ → Option σ} {dir : List (String × String)}
    {s : Session σ} {T : Int} {s' : Session σ} {tr : List Ev}
    {ups downs : Int → Option String} {m target : Int}
    (hload : loadFiles (dir.map Prod.fst) (fun _ => none) (fun _ => none) 0 =
      Except.ok (ups, downs, m))
    (ht : target = if T = -1 then m else T)
    (h : MigrateDatabase db dir s T = (s', none, tr)) :
    validate ups downs m = none ∧
    ∃ s1 cur tr0, getVersion s = (s1, cur, tr0) ∧
      ((target > cur ∧ ∃ tr2,
          runUp db (lookupFile dir) ups (target - cur).toNat (cur + 1) s1 = (s', none, tr2) ∧
          tr = tr0 ++ tr2) ∨
       (target < cur ∧ ∃ tr2,
          runDown db (lookupFile dir) downs (cur - target).toNat cur s1 = (s', none, tr2) ∧
          tr = tr0 ++ tr2) ∨
       (target = cur ∧ s' = s1 ∧ tr = tr0)) := by
  unfold MigrateDatabase at h
  rcases hg : getVersion s with ⟨s1, cur, tr0⟩
  rw [hg] at h
  dsimp only at h
  rw [hload] at h
  dsimp only at h
  cases hv : validate ups downs m with
  | some e => rw [hv] at h; simp at h
  | none =>
    rw [hv] at h
    dsimp only at h
    rw [← ht] at h
    refine ⟨rfl, s1, cur, tr0, rfl, ?_⟩
    by_cases h1 : target > cur
    · rw [if_pos h1] at h
      rcases hr : runUp db (lookupFile dir) ups (target - cur).toNat (cur + 1) s1 with
        ⟨s2, e2, tr2⟩
      rw [hr] at h
      dsimp only at h
      simp only [Prod.mk.injEq] at h
      obtain ⟨ha, hb, hc⟩ := h
      subst ha
      subst hb
      exact Or.inl ⟨h1, tr2, rfl, hc.symm⟩
    · rw [if_neg h1] at h
      by_cases h2 : target < cur
      · rw [if_pos h2] at h
        rcases hr : runDown db (lookupFile dir) downs (cur - target).toNat cur s1 with
          ⟨s2, e2, tr2⟩
        rw [hr] at h
        dsimp only at h
        simp only [Prod.mk.injEq] at h
        obtain ⟨ha, hb, hc⟩ := h
        subst ha
        subst hb
        exact Or.inr (Or.inl ⟨h2, tr2, rfl, hc.symm⟩)
      · rw [if_neg h2] at h
        simp only [Prod.mk.injEq] at h
        exact Or.inr (Or.inr ⟨by omega, h.1.symm, h.2.2.symm⟩)

theorem MigrateDatabase_validation_stops {db : String → σ → Option σ}
    {dir : List (String × String)} {s : Session σ} {T : Int}
    {s1 : Session σ} {cur : Int} {tr0 : List Ev}
    (hg : getVersion s = (s1, cur, tr0)) :
    (∀ e, loadFiles (dir.map Prod.fst) (fun _ => none) (fun _ => none) 0 = Except.error e →
      MigrateDatabase db dir s T = (s1, some e, tr0)) ∧
    (∀ ups downs m e,
      loadFiles (dir.map Prod.fst) (fun _ => none) (fun _ => none) 0 =
        Except.ok (ups, downs, m) →
      validate ups downs m = some e →
      MigrateDatabase db dir s T = (s1, some e, tr0)) := by
  constructor
  · intro e hload
    unfold MigrateDatabase
    rw [hg]
    dsimp only
    rw [hload]
  · intro ups downs m e hload hv
    unfold MigrateDatabase
    rw [hg]
    dsimp only
    rw [hload]
    dsimp only
    rw [hv]

theorem MigrateDatabase_noop {db : String → σ → Option σ} {dir : List (String × String)}
    {s : Session σ} {T : Int} {ups downs : Int → Option String} {m : Int}
    {s1 : Session σ} {cur : Int} {tr0 : List Ev}
    (hg : getVersion s = (s1, cur, tr0))
    (hload : loadFiles (dir.map Prod.fst) (fun _ => none) (fun _ => none) 0 =
      Except.ok (ups, downs, m))
    (hv : validate ups downs m = none)
    (ht : (if T = -1 then m else T) = cur) :
    MigrateDatabase db dir s T = (s1, none, tr0) := by
  unfold MigrateDatabase
  rw [hg]
  dsimp only
  rw [hload]
  dsimp only
  rw [hv]
  dsimp only
  rw [ht]
  rw [if_neg (lt_irrefl cur), if_neg (lt_irrefl cur)]

theorem MigrateDatabase_run_up {db : String → σ → Option σ} {dir : List (String × String)}
    {s : Session σ} {T : Int} {ups downs : Int → Option String} {m target : Int}
    {s1 : Session σ} {cur : Int} {tr0 : List Ev} {s2 : Session σ} {e : Option MigError}
    {tr2 : List Ev}
    (hg : getVersion s = (s1, cur, tr0))
    (hload : loadFiles (dir.map Prod.fst) (fun _ => none) (fun _ => none) 0 =
      Except.ok (ups, downs, m))
    (hv : validate ups downs m = none)
    (ht : target = if T = -1 then m else T)
    (hgt : target > cur)
    (hr : runUp db (lookupFile dir) ups (target - cur).toNat (cur + 1) s1 = (s2, e, tr2)) :
    MigrateDatabase db dir s T = (s2, e, tr0 ++ tr2) := by
  unfold MigrateDatabase
  rw [hg]
  dsimp only
  rw [hload]
  dsimp only
  rw [hv]
  dsimp only
  rw [← ht]
  rw [if_pos hgt, hr]

theorem MigrateDatabase_run_down {db : String → σ → Option σ} {dir : List (String × String)}
    {s : Session σ} {T : Int} {ups downs : Int → Option String} {m target : Int}
    {s1 : Session σ} {cur : Int} {tr0 : List Ev} {s2 : Session σ} {e : Option MigError}
    {tr2 : List Ev}
    (hg : getVersion s = (s1, cur, tr0))
    (hload : loadFiles (dir.map Prod.fst) (fun _ => none) (fun _ => none) 0 =
      Except.ok (ups, downs, m))
    (hv : validate ups downs m = none)
    (ht : target = if T = -1 then m else T)
    (hngt : ¬ target > cur)
    (hlt : target < cur)
    (hr : runDown db (lookupFile dir) downs (cur - target).toNat cur s1 = (s2, e, tr2)) :
    MigrateDatabase db dir s T = (s2, e, tr0 ++ tr2) := by
  unfold MigrateDatabase
  rw [hg]
  dsimp only
  rw [hload]
  dsimp only
  rw [hv]
  dsimp only
  rw [← ht]
  rw [if_neg hngt, if_pos hlt, hr]

end Pgmigrate
namespace Pgmigrate

variable {σ : Type}

theorem MigrateDatabase_ok_version {db : String → σ → Option σ}
    {dir : List (String × String)} {s : Session σ} {T : Int} {s' : Session σ}
    {tr : List Ev} {ups downs : Int → Option String} {m : Int}
    (hload : loadFiles (dir.map Prod.fst) (fun _ => none) (fun _ => none) 0 =
      Except.ok (ups, downs, m))
    (h : MigrateDatabase db dir s T = (s', none, tr)) :
    validate ups downs m = none ∧ s'.version = some (if T = -1 then m else T) := by
  obtain ⟨hv, s1, cur, tr0, hg, hcases⟩ :=
    MigrateDatabase_ok_inv hload rfl h
  refine ⟨hv, ?_⟩
  rcases hcases with ⟨hgt, tr2, hr, _⟩ | ⟨hlt, tr2, hr, _⟩ | ⟨heq, hs, _⟩
  · rcases runUp_ok_version _ _ _ _ _ hr with ⟨hk0, _, _⟩ | hver
    · exfalso
      omega
    · rw [hver]
      congr 1 <;> omega
  · rcases runDown_ok_version _ _ _ _ _ hr with ⟨hk0, _, _⟩ | hver
    · exfalso
      omega
    · rw [hver]
      congr 1 <;> omega
  · rw [hs, heq]
    exact (getVersion_version hg).1

/-- C1: each executed migration step runs the file's statement batch and the
version update inside one transaction: on success a single commit publishes
both the schema change and the new version, and if the statement batch
fails the transaction is rolled back, the committed schema and the
persisted version are both unchanged, the step's error is returned, and no
further steps execute in either the ascending or the descending pass,
however many steps remain. -/
theorem claim_C1 {db : String → σ → Option σ} {fs : String → Option String}
    (s : Session σ) (name c : String) (v : Int) :
    (∀ sch2 w, fs name = some c → db c s.schema = some sch2 → s.version = some w →
      runFile db fs s name v =
        (⟨sch2, some v⟩, none, [Ev.beginTx, Ev.exec name, Ev.setVersion v, Ev.commit])) ∧
    (fs name = some c → db c s.schema = none →
      runFile db fs s name v =
        (s, some (MigError.executing name), [Ev.beginTx, Ev.exec name, Ev.rollback]) ∧
      (∀ (k : Nat) (idx : Int) (ups : Int → Option String), ups idx = some name →
        runUp db fs ups (k + 1) idx s =
          (s, some (MigError.executing name), [Ev.beginTx, Ev.exec name, Ev.rollback])) ∧
      (∀ (k : Nat) (idx : Int) (downs : Int → Option String), downs idx = some name →
        runDown db fs downs (k + 1) idx s =
          (s, some (MigError.executing name), [Ev.beginTx, Ev.exec name, Ev.rollback]))) := by
  constructor
  · intro sch2 w hf hdb hv
    simp [runFile, hf, hdb, hv]
  · intro hf hdb
    have hrf : ∀ w : Int, runFile db fs s name w =
        (s, some (MigError.executing name), [Ev.beginTx, Ev.exec name, Ev.rollback]) := by
      intro w
      simp [runFile, hf, hdb]
    refine ⟨hrf v, ?_, ?_⟩
    · intro k idx ups hup
      rw [runUp_succ]
      rw [show (ups idx).getD "" = name from by rw [hup]; rfl]
      rw [hrf idx]
    · intro k idx downs hdn
      rw [runDown_succ]
      rw [show (downs idx).getD "" = name from by rw [hdn]; rfl]
      rw [hrf (idx - 1)]

/-- C2: a successful run with current version `cur` and resolved target
`target` produces, beyond the version read, exactly the reference trace of
the spec: for `target > cur` the up-files for indices `cur + 1` through
`target` in ascending order, persisting version `idx` after each, and for
`target < cur` the down-files for indices `cur` down to `target + 1` in
descending order, persisting version `idx - 1` after each. -/
theorem claim_C2 {db : String → σ → Option σ} {dir : List (String × String)}
    {s : Session σ} {T : Int} {s' : Session σ} {tr : List Ev}
    {ups downs : Int → Option String} {m target : Int}
    {s1 : Session σ} {cur : Int} {tr0 : List Ev}
    (hload : loadFiles (dir.map Prod.fst) (fun _ => none) (fun _ => none) 0 =
      Except.ok (ups, downs, m))
    (hg : getVersion s = (s1, cur, tr0))
    (ht : target = if T = -1 then m else T)
    (h : MigrateDatabase db dir s T = (s', none, tr)) :
    (target > cur → tr = tr0 ++ specUpTrace ups (target - cur).toNat (cur + 1)) ∧
    (target < cur → tr = tr0 ++ specDownTrace downs (cur - target).toNat cur) := by
  obtain ⟨hv, s1', cur', tr0', hg', hcases⟩ := MigrateDatabase_ok_inv hload ht h
  rw [hg] at hg'
  simp only [Prod.mk.injEq] at hg'
  obtain ⟨e1, e2, e3⟩ := hg'
  subst e1 e2 e3
  rcases hcases with ⟨hgt, tr2, hr, htr⟩ | ⟨hlt, tr2, hr, htr⟩ | ⟨heq, hs, htr⟩
  · refine ⟨fun _ => ?_, fun hlt => absurd hlt (by omega)⟩
    rw [htr, runUp_ok_trace _ _ _ _ _ hr]
  · refine ⟨fun hgt => absurd hgt (by omega), fun _ => ?_⟩
    rw [htr, runDown_ok_trace _ _ _ _ _ hr]
  · exact ⟨fun hgt => absurd hgt (by omega), fun hlt => absurd hlt (by omega)⟩

/-- C3: a run that returns success leaves the persisted version exactly at
the resolved target (`-1` resolving to the maximum discovered number), and
consequently for any `T1, T2` in `[0, maxNumber]`, migrating to `T1` and
then to `T2` with all required files succeeding leaves the persisted
version exactly `T2`. -/
theorem claim_C3 {db : String → σ → Option σ} {dir : List (String × String)}
    {ups downs : Int → Option String} {m : Int}
    (hload : loadFiles (dir.map Prod.fst) (fun _ => none) (fun _ => none) 0 =
      Except.ok (ups, downs, m)) :
    (∀ (s s' : Session σ) (tr : List Ev) (T : Int),
      MigrateDatabase db dir s T = (s', none, tr) →
      s'.version = some (if T = -1 then m else T)) ∧
    (∀ (s s1 s2 : Session σ) (tr1 tr2 : List Ev) (T1 T2 : Int),
      0 ≤ T1 → T1 ≤ m → 0 ≤ T2 → T2 ≤ m →
      MigrateDatabase db dir s T1 = (s1, none, tr1) →
      MigrateDatabase db dir s1 T2 = (s2, none, tr2) →
      s2.version = some T2) := by
  constructor
  · intro s s' tr T h
    exact (MigrateDatabase_ok_version hload h).2
  · intro s s1 s2 tr1 tr2 T1 T2 h1 h2 h3 h4 hr1 hr2
    have := (MigrateDatabase_ok_version hload hr2).2
    rw [this, if_neg (by omega)]

end Pgmigrate
namespace Pgmigrate

variable {σ : Type}

/-- C4: when the migration set is malformed — a filename error from the
discovery loop or a missing interior up/down file from the completeness
check — the run returns exactly that validation error, no migration SQL
executes, no transaction opens (the trace holds at most the version
bootstrap), and no version change is recorded: the resulting session is the
post-version-read session, identical to the initial one whenever the
tracking table already existed. -/
theorem claim_C4 {db : String → σ → Option σ} {dir : List (String × String)}
    {s : Session σ} {T : Int} {s1 : Session σ} {cur : Int} {tr0 : List Ev}
    (hg : getVersion s = (s1, cur, tr0)) :
    (∀ e, loadFiles (dir.map Prod.fst) (fun _ => none) (fun _ => none) 0 =
        Except.error e →
      MigrateDatabase db dir s T = (s1, some e, tr0)) ∧
    (∀ ups downs m e,
      loadFiles (dir.map Prod.fst) (fun _ => none) (fun _ => none) 0 =
        Except.ok (ups, downs, m) →
      validate ups downs m = some e →
      MigrateDatabase db dir s T = (s1, some e, tr0)) ∧
    (tr0 = [] ∨ tr0 = [Ev.bootstrap]) ∧
    s1.version = some cur ∧ s1.schema = s.schema ∧
    (∀ v, s.version = some v → s1 = s ∧ cur = v) := by
  obtain ⟨hv1, hv2, hv3⟩ := getVersion_version hg
  refine ⟨(MigrateDatabase_validation_stops hg).1, (MigrateDatabase_validation_stops hg).2,
    hv3, hv1, hv2, ?_⟩
  intro v hsv
  have hgv : getVersion s = (s, v, []) := by
    unfold getVersion
    rw [hsv]
  rw [hgv] at hg
  simp only [Prod.mk.injEq] at hg
  exact ⟨hg.1.symm, hg.2.1.symm⟩

/-- C5: the completeness check passes exactly when every index in
`[1, maxNumber - 1]` has both an up-file and a down-file; when it fails it
reports the first missing file (up checked before down at each index, no
aggregation); and the index `maxNumber` itself only needs an up-file — a
missing down-file there is not an error. -/
theorem claim_C5 (ups downs : Int → Option String) (m : Int) :
    (validate ups downs m = none ↔
      ∀ i : Int, 1 ≤ i → i < m → (ups i).isSome ∧ (downs i).isSome) ∧
    (∀ j : Int, 1 ≤ j → j < m →
      (∀ i : Int, 1 ≤ i → i < j → (ups i).isSome ∧ (downs i).isSome) →
      (ups j = none → validate ups downs m = some (MigError.missingUp j)) ∧
      (∀ a, ups j = some a → downs j = none →
        validate ups downs m = some (MigError.missingDown j))) ∧
    ((∀ i : Int, 1 ≤ i → i < m → (ups i).isSome ∧ (downs i).isSome) →
      downs m = none → validate ups downs m = none) := by
  have hiff : validate ups downs m = none ↔
      ∀ i : Int, 1 ≤ i → i < m → (ups i).isSome ∧ (downs i).isSome := by
    unfold validate
    rw [validateFrom_none_iff]
    constructor
    · intro hall i h1 h2
      exact hall i h1 (by omega)
    · intro hall i h1 h2
      exact hall i h1 (by omega)
  refine ⟨hiff, ?_, fun hall _ => hiff.mpr hall⟩
  intro j h1 h2 hpre
  exact validateFrom_first (m - 1).toNat 1 j h1 (by omega) hpre

/-- C6: a directory entry without exactly three dot-separated segments
ending in `sql` is silently skipped by the discovery loop (no error, no
change to the indexes); an entry of that shape whose number segment does
not parse as an unsigned integer is a fatal invalid-filename error; and an
entry with a parsing number but a direction token other than `up`/`down`
is a fatal bad-filename error. -/
theorem claim_C6 :
    (∀ name : String, shapeSql name = false → parseName name = ParseOutcome.skip) ∧
    (∀ (name : String) (rest : List String) (ups downs : Int → Option String) (mm : Int),
      parseName name = ParseOutcome.skip →
      loadFiles (name :: rest) ups downs mm = loadFiles rest ups downs mm) ∧
    (∀ (name : String) (p0 p1 : List Char),
      splitOnChar '.' name.toList = [p0, p1, "sql".toList] →
      parseUint64 ((splitOnChar '-' p0).headD []) = none →
      parseName name = ParseOutcome.err (MigError.invalidFilename name)) ∧
    (∀ (name : String) (p0 p1 : List Char) (n : Nat),
      splitOnChar '.' name.toList = [p0, p1, "sql".toList] →
      parseUint64 ((splitOnChar '-' p0).headD []) = some n →
      p1 ≠ "up".toList → p1 ≠ "down".toList →
      parseName name = ParseOutcome.err (MigError.badFilename name)) := by
  refine ⟨?_, ?_, ?_, ?_⟩
  · intro name h
    unfold parseName
    rcases hsp : splitOnChar '.' name.toList with _ | ⟨a, _ | ⟨b, _ | ⟨c, _ | ⟨d, rest⟩⟩⟩⟩
    · rfl
    · rfl
    · rfl
    · dsimp only
      rw [if_pos]
      have h2 : shapeSql name = (c == "sql".toList) := by
        unfold shapeSql
        rw [hsp]
      rw [h] at h2
      intro hc
      rw [hc] at h2
      simp at h2
    · rfl
  · intro name rest ups downs mm h
    rw [loadFiles_cons, h]
  · intro name p0 p1 hsp hnum
    unfold parseName
    rw [hsp]
    dsimp only
    rw [if_neg (by simp), hnum]
  · intro name p0 p1 n hsp hnum hup hdn
    unfold parseName
    rw [hsp]
    dsimp only
    rw [if_neg (by simp), hnum]
    dsimp only
    rw [if_neg hup, if_neg hdn]

/-- C7: reading the version when the tracking table is absent creates the
table with the initial row `0` and returns `0` without error, and an
immediately subsequent read returns `0` through the now-existing table;
while a scan error that is not the `undefined_table` signal — a non-pq
error such as a failed integer scan, or a pq error with any other code —
is returned to the caller unchanged, with the bootstrap never attempted
(the result does not depend on the bootstrap's outcome at all). -/
theorem claim_C7 {σ : Type} :
    (∀ s : Session σ, s.version = none →
      getVersion s = (⟨s.schema, some 0⟩, 0, [Ev.bootstrap]) ∧
      getVersion (⟨s.schema, some 0⟩ : Session σ) = (⟨s.schema, some 0⟩, 0, [])) ∧
    (∀ (msg : String) (createResult : Except GoError Unit),
      getVersionCore (Except.error (GoError.other msg)) createResult =
        Except.error (GoError.other msg)) ∧
    (∀ (code : String) (createResult : Except GoError Unit), code ≠ "undefined_table" →
      getVersionCore (Except.error (GoError.pq code)) createResult =
        Except.error (GoError.pq code)) := by
  refine ⟨?_, ?_, ?_⟩
  · intro s hs
    constructor
    · unfold getVersion
      rw [hs]
    · rfl
  · intro msg createResult
    rfl
  · intro code createResult hcode
    unfold getVersionCore
    dsimp only
    rw [if_pos hcode]

end Pgmigrate
namespace Pgmigrate

variable {σ : Type}

/-- C8: when the resolved target equals the current version the run is a
no-op — it returns success with the post-version-read session and a trace
containing at most the bootstrap, so no step executes and nothing is
written beyond the version read — and consequently running to a target and
then to the same target again executes no steps at all on the second run
(its trace is empty). -/
theorem claim_C8 {db : String → σ → Option σ} {dir : List (String × String)} {T : Int}
    {ups downs : Int → Option String} {m : Int}
    (hload : loadFiles (dir.map Prod.fst) (fun _ => none) (fun _ => none) 0 =
      Except.ok (ups, downs, m)) :
    (∀ (s s1 : Session σ) (cur : Int) (tr0 : List Ev),
      getVersion s = (s1, cur, tr0) → validate ups downs m = none →
      (if T = -1 then m else T) = cur →
      MigrateDatabase db dir s T = (s1, none, tr0) ∧ (tr0 = [] ∨ tr0 = [Ev.bootstrap])) ∧
    (∀ (s s' : Session σ) (tr : List Ev),
      MigrateDatabase db dir s T = (s', none, tr) →
      MigrateDatabase db dir s' T = (s', none, [])) := by
  constructor
  · intro s s1 cur tr0 hg hv ht
    exact ⟨MigrateDatabase_noop hg hload hv ht, (getVersion_version hg).2.2⟩
  · intro s s' tr h
    obtain ⟨hv, hver⟩ := MigrateDatabase_ok_version hload h
    have hg : getVersion s' = (s', if T = -1 then m else T, []) := by
      unfold getVersion
      rw [hver]
    exact MigrateDatabase_noop hg hload hv rfl

/-- C9 (amended): after every successful run whose targetVersion is at
least `-1`, whose starting persisted version lies in `[0, maxNumber]` of
the discovered set, and whose directory has no empty-named entry, the
persisted version again lies in `[0, maxNumber]`.  (The unamended claim is
refuted by `claim_C9_counterexample`: a stale persisted version above
`maxNumber` equal to the target makes the run a successful no-op that
leaves the version outside the range.) -/
theorem claim_C9 {db : String → σ → Option σ} {dir : List (String × String)}
    {s : Session σ} {T : Int} {s' : Session σ} {tr : List Ev}
    {ups downs : Int → Option String} {m : Int}
    (hload : loadFiles (dir.map Prod.fst) (fun _ => none) (fun _ => none) 0 =
      Except.ok (ups, downs, m))
    (hempty : lookupFile dir "" = none)
    (hver : ∀ v, s.version = some v → 0 ≤ v ∧ v ≤ m)
    (hT : -1 ≤ T)
    (h : MigrateDatabase db dir s T = (s', none, tr)) :
    ∃ v, s'.version = some v ∧ 0 ≤ v ∧ v ≤ m := by
  obtain ⟨hm0, hbound⟩ := loadFiles_inv _ _ _ _ _ _ _ hload
  obtain ⟨hv, s1, cur, tr0, hg, hcases⟩ :=
    MigrateDatabase_ok_inv hload rfl h
  have hcur : 0 ≤ cur ∧ cur ≤ m := by
    cases hsv : s.version with
    | none =>
      have hg2 : getVersion s = (⟨s.schema, some 0⟩, 0, [Ev.bootstrap]) := by
        unfold getVersion
        rw [hsv]
      rw [hg2] at hg
      simp only [Prod.mk.injEq] at hg
      omega
    | some v =>
      have hg2 : getVersion s = (s, v, []) := by
        unfold getVersion
        rw [hsv]
      rw [hg2] at hg
      simp only [Prod.mk.injEq] at hg
      have := hver v hsv
      omega
  rcases hcases with ⟨hgt, tr2, hr, _⟩ | ⟨hlt, tr2, hr, _⟩ | ⟨heq, hs, _⟩
  · rcases runUp_ok_version _ _ _ _ _ hr with ⟨hk0, _, _⟩ | hver'
    · exfalso
      omega
    · refine ⟨cur + 1 + ((if T = -1 then m else T) - cur).toNat - 1, hver', by omega, ?_⟩
      by_cases htm : (if T = -1 then m else T) ≤ m
      · omega
      · exfalso
        obtain ⟨c, hc⟩ := runUp_ok_present _ _ _ _ _ hr (if T = -1 then m else T)
          (by omega) (by omega)
        have hux : ups (if T = -1 then m else T) = none :=
          (hbound (if T = -1 then m else T) (by omega)).1
        rw [hux] at hc
        simp only [Option.getD_none] at hc
        rw [hempty] at hc
        exact Option.noConfusion hc
  · rcases runDown_ok_version _ _ _ _ _ hr with ⟨hk0, _, _⟩ | hver'
    · exfalso
      omega
    · refine ⟨cur - ((cur - (if T = -1 then m else T))).toNat, hver', ?_, by omega⟩
      by_cases hT1 : T = -1
      · rw [if_pos hT1] at hlt
        omega
      · rw [if_neg hT1] at hlt ⊢
        omega
  · refine ⟨cur, ?_, hcur.1, hcur.2⟩
    rw [hs]
    exact (getVersion_version hg).1

/-- C9 counterexample: with an empty migration directory (maxNumber 0) and
a stale persisted version 5, running to target 5 succeeds as a no-op and
leaves the persisted version 5, which is not in `[0, maxNumber]` — so a
successful run does not by itself confine the version to the discovered
range. -/
theorem claim_C9_counterexample :
    MigrateDatabase (fun _ (_ : Unit) => some ()) [] (⟨(), some 5⟩ : Session Unit) 5 =
      ((⟨(), some 5⟩ : Session Unit), none, []) ∧
    loadFiles (([] : List (String × String)).map Prod.fst)
        (fun _ => none) (fun _ => none) 0 =
      Except.ok ((fun _ => none : Int → Option String),
        (fun _ => none : Int → Option String), (0 : Int)) ∧
    ¬ ((5 : Int) ≤ 0) :=
  ⟨rfl, rfl, by decide⟩

/-- C10: a targetVersion strictly below `-1` is neither treated as the
latest-version sentinel nor rejected: with a well-formed set and current
version `0`, the runner enters the descending pass and attempts the
down-step for version `0`, for which no down-file exists; the Go map
lookup yields the empty name, whose read fails, so the run returns a
file-read error (for the empty name) rather than any validation error,
with no transaction opened. -/
theorem claim_C10 {db : String → σ → Option σ} {dir : List (String × String)}
    {ups downs : Int → Option String} {m : Int} {s : Session σ} {T : Int}
    (hload : loadFiles (dir.map Prod.fst) (fun _ => none) (fun _ => none) 0 =
      Except.ok (ups, downs, m))
    (hv : validate ups downs m = none)
    (hd0 : downs 0 = none)
    (hempty : lookupFile dir "" = none)
    (hver : s.version = some 0)
    (hT : T < -1) :
    MigrateDatabase db dir s T = (s, some (MigError.readFileError ""), []) := by
  have hg : getVersion s = (s, 0, []) := by
    unfold getVersion
    rw [hver]
  have hne : ¬ ((if T = -1 then m else T) > 0) := by
    rw [if_neg (by omega)]
    omega
  have hlt : (if T = -1 then m else T) < 0 := by
    rw [if_neg (by omega)]
    omega
  have hk : (0 - (if T = -1 then m else T)).toNat =
      ((0 - (if T = -1 then m else T)).toNat - 1) + 1 := by
    rw [if_neg (by omega)]
    omega
  have hrf : runFile db (lookupFile dir) s "" (0 - 1) =
      (s, some (MigError.readFileError ""), []) := by
    unfold runFile
    rw [hempty]
  have hrd : runDown db (lookupFile dir) downs
      (((0 - (if T = -1 then m else T)).toNat - 1) + 1) 0 s =
      (s, some (MigError.readFileError ""), []) := by
    rw [runDown_succ]
    rw [show (downs 0).getD "" = "" from by rw [hd0]; rfl]
    rw [hrf]
  have hr : runDown db (lookupFile dir) downs
      (0 - (if T = -1 then m else T)).toNat 0 s =
      (s, some (MigError.readFileError ""), []) := by
    rw [hk]
    exact hrd
  have := MigrateDatabase_run_down hg hload hv rfl hne hlt hr
  simpa using this

end Pgmigrate
namespace Pgmigrate

theorem claim_C1_witness :
    runFile (fun q (l : List String) => if q = "BOOM" then none else some (q :: l))
        (fun n => if n = "1.up.sql" then some "BOOM" else
          if n = "2.up.sql" then some "OK" else none)
        (⟨[], some 0⟩ : Session (List String)) "2.up.sql" 2 =
      ((⟨["OK"], some 2⟩ : Session (List String)), none,
        [Ev.beginTx, Ev.exec "2.up.sql", Ev.setVersion 2, Ev.commit]) ∧
    runFile (fun q (l : List String) => if q = "BOOM" then none else some (q :: l))
        (fun n => if n = "1.up.sql" then some "BOOM" else
          if n = "2.up.sql" then some "OK" else none)
        (⟨[], some 0⟩ : Session (List String)) "1.up.sql" 1 =
      ((⟨[], some 0⟩ : Session (List String)), some (MigError.executing "1.up.sql"),
        [Ev.beginTx, Ev.exec "1.up.sql", Ev.rollback]) ∧
    runUp (fun q (l : List String) => if q = "BOOM" then none else some (q :: l))
        (fun n => if n = "1.up.sql" then some "BOOM" else
          if n = "2.up.sql" then some "OK" else none)
        (fun i => if i = 1 then some "1.up.sql" else none) 3 1
        (⟨[], some 0⟩ : Session (List String)) =
      ((⟨[], some 0⟩ : Session (List String)), some (MigError.executing "1.up.sql"),
        [Ev.beginTx, Ev.exec "1.up.sql", Ev.rollback]) := by
  refine ⟨?_, ?_, ?_⟩
  · exact (claim_C1 _ "2.up.sql" "OK" 2).1 ["OK"] 0 rfl rfl rfl
  · exact ((claim_C1 _ "1.up.sql" "BOOM" 1).2 rfl rfl).1
  · exact ((claim_C1 _ "1.up.sql" "BOOM" 1).2 rfl rfl).2.1 2 1 _ rfl

theorem claim_C2_witness :
    (MigrateDatabase (fun q (l : List String) => some (q :: l))
        [("001-a.up.sql", "u1"), ("001-a.down.sql", "d1"),
         ("002-b.up.sql", "u2"), ("002-b.down.sql", "d2")]
        (⟨[], some 0⟩ : Session (List String)) 2).2.2 =
      [] ++ specUpTrace
        (mapInsert (mapInsert (fun _ => none) 1 "001-a.up.sql") 2 "002-b.up.sql") 2 1 := by
  have hload : loadFiles
      (([("001-a.up.sql", "u1"), ("001-a.down.sql", "d1"),
         ("002-b.up.sql", "u2"), ("002-b.down.sql", "d2")] :
        List (String × String)).map Prod.fst)
      (fun _ => none) (fun _ => none) 0 =
      Except.ok
        (mapInsert (mapInsert (fun _ => none) 1 "001-a.up.sql") 2 "002-b.up.sql",
         mapInsert (mapInsert (fun _ => none) 1 "001-a.down.sql") 2 "002-b.down.sql",
         2) := rfl
  have hg : getVersion (⟨[], some 0⟩ : Session (List String)) =
      ((⟨[], some 0⟩ : Session (List String)), 0, []) := rfl
  have hrun : MigrateDatabase (fun q (l : List String) => some (q :: l))
      [("001-a.up.sql", "u1"), ("001-a.down.sql", "d1"),
       ("002-b.up.sql", "u2"), ("002-b.down.sql", "d2")]
      (⟨[], some 0⟩ : Session (List String)) 2 =
      ((⟨["u2", "u1"], some 2⟩ : Session (List String)), none,
        [Ev.beginTx, Ev.exec "001-a.up.sql", Ev.setVersion 1, Ev.commit,
         Ev.beginTx, Ev.exec "002-b.up.sql", Ev.setVersion 2, Ev.commit]) := rfl
  exact (claim_C2 hload hg rfl hrun).1 (by decide)

theorem claim_C3_witness :
    (MigrateDatabase (fun q (l : List String) => some (q :: l))
        [("001-a.up.sql", "u1"), ("001-a.down.sql", "d1"),
         ("002-b.up.sql", "u2"), ("002-b.down.sql", "d2")]
        (⟨[], some 0⟩ : Session (List String)) (-1)).1.version = some 2 ∧
    (MigrateDatabase (fun q (l : List String) => some (q :: l))
        [("001-a.up.sql", "u1"), ("001-a.down.sql", "d1"),
         ("002-b.up.sql", "u2"), ("002-b.down.sql", "d2")]
        (⟨["u1"], some 1⟩ : Session (List String)) 2).1.version = some 2 := by
  have hload : loadFiles
      (([("001-a.up.sql", "u1"), ("001-a.down.sql", "d1"),
         ("002-b.up.sql", "u2"), ("002-b.down.sql", "d2")] :
        List (String × String)).map Prod.fst)
      (fun _ => none) (fun _ => none) 0 =
      Except.ok
        (mapInsert (mapInsert (fun _ => none) 1 "001-a.up.sql") 2 "002-b.up.sql",
         mapInsert (mapInsert (fun _ => none) 1 "001-a.down.sql") 2 "002-b.down.sql",
         2) := rfl
  have h1 : MigrateDatabase (fun q (l : List String) => some (q :: l))
      [("001-a.up.sql", "u1"), ("001-a.down.sql", "d1"),
       ("002-b.up.sql", "u2"), ("002-b.down.sql", "d2")]
      (⟨[], some 0⟩ : Session (List String)) (-1) =
      ((⟨["u2", "u1"], some 2⟩ : Session (List String)), none,
        [Ev.beginTx, Ev.exec "001-a.up.sql", Ev.setVersion 1, Ev.commit,
         Ev.beginTx, Ev.exec "002-b.up.sql", Ev.setVersion 2, Ev.commit]) := rfl
  have h2 : MigrateDatabase (fun q (l : List String) => some (q :: l))
      [("001-a.up.sql", "u1"), ("001-a.down.sql", "d1"),
       ("002-b.up.sql", "u2"), ("002-b.down.sql", "d2")]
      (⟨[], some 0⟩ : Session (List String)) 1 =
      ((⟨["u1"], some 1⟩ : Session (List String)), none,
        [Ev.beginTx, Ev.exec "001-a.up.sql", Ev.setVersion 1, Ev.commit]) := rfl
  have h3 : MigrateDatabase (fun q (l : List String) => some (q :: l))
      [("001-a.up.sql", "u1"), ("001-a.down.sql", "d1"),
       ("002-b.up.sql", "u2"), ("002-b.down.sql", "d2")]
      (⟨["u1"], some 1⟩ : Session (List String)) 2 =
      ((⟨["u2", "u1"], some 2⟩ : Session (List String)), none,
        [Ev.beginTx, Ev.exec "002-b.up.sql", Ev.setVersion 2, Ev.commit]) := rfl
  constructor
  · exact (claim_C3 hload).1 _ _ _ _ h1
  · exact (claim_C3 hload).2 _ _ _ _ _ 1 2 (by decide) (by decide) (by decide) (by decide)
      h2 h3

theorem claim_C4_witness :
    MigrateDatabase (fun q (l : List String) => some (q :: l))
        [("abc.up.sql", "x")] (⟨[], some 7⟩ : Session (List String)) 3 =
      ((⟨[], some 7⟩ : Session (List String)),
        some (MigError.invalidFilename "abc.up.sql"), []) ∧
    MigrateDatabase (fun q (l : List String) => some (q :: l))
        [("001-a.up.sql", "u1"), ("003-c.up.sql", "u3")]
        (⟨[], some 7⟩ : Session (List String)) 3 =
      ((⟨[], some 7⟩ : Session (List String)), some (MigError.missingDown 1), []) := by
  have hg : getVersion (⟨[], some 7⟩ : Session (List String)) =
      ((⟨[], some 7⟩ : Session (List String)), 7, []) := rfl
  constructor
  · exact (claim_C4 hg).1 (MigError.invalidFilename "abc.up.sql") rfl
  · exact (claim_C4 hg).2.1
      (mapInsert (mapInsert (fun _ => none) 1 "001-a.up.sql") 3 "003-c.up.sql")
      (fun _ => none) 3 (MigError.missingDown 1) rfl rfl

theorem claim_C5_witness :
    validate (mapInsert (mapInsert (fun _ => none) 1 "001-a.up.sql") 2 "002-b.up.sql")
      (mapInsert (mapInsert (fun _ => none) 1 "001-a.down.sql") 2 "002-b.down.sql") 2 =
      none ∧
    validate (mapInsert (mapInsert (fun _ => none) 1 "001-a.up.sql") 3 "003-c.up.sql")
      (fun _ => none) 3 = some (MigError.missingDown 1) ∧
    validate (mapInsert (mapInsert (fun _ => none) 1 "001-a.up.sql") 2 "002-b.up.sql")
      (mapInsert (fun _ => none) 1 "001-a.down.sql") 2 = none := by
  refine ⟨?_, ?_, ?_⟩
  · exact (claim_C5 _ _ 2).1.mpr (by
      intro i h1 h2
      have : i = 1 := by omega
      subst this
      exact ⟨rfl, rfl⟩)
  · exact ((claim_C5 _ _ 3).2.1 1 (by decide) (by decide)
      (by intro i h1 h2; exfalso; omega)).2 "001-a.up.sql" rfl rfl
  · exact (claim_C5 _ _ 2).2.2 (by
      intro i h1 h2
      have : i = 1 := by omega
      subst this
      exact ⟨rfl, rfl⟩) rfl

theorem claim_C6_witness :
    parseName "README.md" = ParseOutcome.skip ∧
    loadFiles ["README.md", "001-a.up.sql"] (fun _ => none) (fun _ => none) 0 =
      loadFiles ["001-a.up.sql"] (fun _ => none) (fun _ => none) 0 ∧
    parseName "abc.up.sql" = ParseOutcome.err (MigError.invalidFilename "abc.up.sql") ∧
    parseName "2.sideways.sql" =
      ParseOutcome.err (MigError.badFilename "2.sideways.sql") := by
  refine ⟨?_, ?_, ?_, ?_⟩
  · exact claim_C6.1 "README.md" rfl
  · exact claim_C6.2.1 "README.md" ["001-a.up.sql"] (fun _ => none) (fun _ => none) 0
      (claim_C6.1 "README.md" rfl)
  · exact claim_C6.2.2.1 "abc.up.sql" "abc".toList "up".toList rfl rfl
  · exact claim_C6.2.2.2 "2.sideways.sql" "2".toList "sideways".toList 2 rfl rfl
      (by decide) (by decide)

theorem claim_C7_witness :
    getVersion (⟨(), none⟩ : Session Unit) =
      ((⟨(), some 0⟩ : Session Unit), 0, [Ev.bootstrap]) ∧
    getVersion (⟨(), some 0⟩ : Session Unit) = ((⟨(), some 0⟩ : Session Unit), 0, []) ∧
    getVersionCore (Except.error (GoError.other "scan failure"))
        (Except.ok ()) = Except.error (GoError.other "scan failure") ∧
    getVersionCore (Except.error (GoError.pq "syntax_error"))
        (Except.ok ()) = Except.error (GoError.pq "syntax_error") := by
  refine ⟨?_, ?_, ?_, ?_⟩
  · exact ((@claim_C7 Unit).1 ⟨(), none⟩ rfl).1
  · exact ((@claim_C7 Unit).1 ⟨(), none⟩ rfl).2
  · exact (@claim_C7 Unit).2.1 "scan failure" (Except.ok ())
  · exact (@claim_C7 Unit).2.2 "syntax_error" (Except.ok ()) (by decide)

theorem claim_C8_witness :
    MigrateDatabase (fun q (l : List String) => some (q :: l))
        [("001-a.up.sql", "u1"), ("001-a.down.sql", "d1"),
         ("002-b.up.sql", "u2"), ("002-b.down.sql", "d2")]
        (⟨["x"], some 2⟩ : Session (List String)) 2 =
      ((⟨["x"], some 2⟩ : Session (List String)), none, []) ∧
    MigrateDatabase (fun q (l : List String) => some (q :: l))
        [("001-a.up.sql", "u1"), ("001-a.down.sql", "d1"),
         ("002-b.up.sql", "u2"), ("002-b.down.sql", "d2")]
        (⟨["u2", "u1"], some 2⟩ : Session (List String)) 2 =
      ((⟨["u2", "u1"], some 2⟩ : Session (List String)), none, []) := by
  have hload : loadFiles
      (([("001-a.up.sql", "u1"), ("001-a.down.sql", "d1"),
         ("002-b.up.sql", "u2"), ("002-b.down.sql", "d2")] :
        List (String × String)).map Prod.fst)
      (fun _ => none) (fun _ => none) 0 =
      Except.ok
        (mapInsert (mapInsert (fun _ => none) 1 "001-a.up.sql") 2 "002-b.up.sql",
         mapInsert (mapInsert (fun _ => none) 1 "001-a.down.sql") 2 "002-b.down.sql",
         2) := rfl
  constructor
  · exact ((@claim_C8 (List String) _ _ 2 _ _ _ hload).1 ⟨["x"], some 2⟩ ⟨["x"], some 2⟩ 2 [] rfl rfl rfl).1
  · have hrun : MigrateDatabase (fun q (l : List String) => some (q :: l))
        [("001-a.up.sql", "u1"), ("001-a.down.sql", "d1"),
         ("002-b.up.sql", "u2"), ("002-b.down.sql", "d2")]
        (⟨[], some 0⟩ : Session (List String)) 2 =
        ((⟨["u2", "u1"], some 2⟩ : Session (List String)), none,
          [Ev.beginTx, Ev.exec "001-a.up.sql", Ev.setVersion 1, Ev.commit,
           Ev.beginTx, Ev.exec "002-b.up.sql", Ev.setVersion 2, Ev.commit]) := rfl
    exact (claim_C8 hload).2 ⟨[], some 0⟩ _ _ hrun

theorem claim_C9_witness :
    ∃ v, (MigrateDatabase (fun q (l : List String) => some (q :: l))
        [("001-a.up.sql", "u1"), ("001-a.down.sql", "d1"),
         ("002-b.up.sql", "u2"), ("002-b.down.sql", "d2")]
        (⟨[], some 1⟩ : Session (List String)) 2).1.version = some v ∧
      0 ≤ v ∧ v ≤ 2 := by
  have hload : loadFiles
      (([("001-a.up.sql", "u1"), ("001-a.down.sql", "d1"),
         ("002-b.up.sql", "u2"), ("002-b.down.sql", "d2")] :
        List (String × String)).map Prod.fst)
      (fun _ => none) (fun _ => none) 0 =
      Except.ok
        (mapInsert (mapInsert (fun _ => none) 1 "001-a.up.sql") 2 "002-b.up.sql",
         mapInsert (mapInsert (fun _ => none) 1 "001-a.down.sql") 2 "002-b.down.sql",
         2) := rfl
  have hrun : MigrateDatabase (fun q (l : List String) => some (q :: l))
      [("001-a.up.sql", "u1"), ("001-a.down.sql", "d1"),
       ("002-b.up.sql", "u2"), ("002-b.down.sql", "d2")]
      (⟨[], some 1⟩ : Session (List String)) 2 =
      ((⟨["u2"], some 2⟩ : Session (List String)), none,
        [Ev.beginTx, Ev.exec "002-b.up.sql", Ev.setVersion 2, Ev.commit]) := rfl
  exact claim_C9 hload rfl
    (by intro v hv; simp only [Option.some.injEq] at hv; omega) (by decide) hrun

theorem claim_C10_witness :
    MigrateDatabase (fun q (l : List String) => some (q :: l))
        [("001-a.up.sql", "u1"), ("001-a.down.sql", "d1"),
         ("002-b.up.sql", "u2"), ("002-b.down.sql", "d2")]
        (⟨[], some 0⟩ : Session (List String)) (-2) =
      ((⟨[], some 0⟩ : Session (List String)), some (MigError.readFileError ""), []) := by
  have hload : loadFiles
      (([("001-a.up.sql", "u1"), ("001-a.down.sql", "d1"),
         ("002-b.up.sql", "u2"), ("002-b.down.sql", "d2")] :
        List (String × String)).map Prod.fst)
      (fun _ => none) (fun _ => none) 0 =
      Except.ok
        (mapInsert (mapInsert (fun _ => none) 1 "001-a.up.sql") 2 "002-b.up.sql",
         mapInsert (mapInsert (fun _ => none) 1 "001-a.down.sql") 2 "002-b.down.sql",
         2) := rfl
  exact claim_C10 hload rfl rfl rfl rfl (by decide)

end Pgmigrate
